import Mathlib

/-!
# 1psa: a command-line credential lookup over a secrets backend

A shallow embedding of `main.go`.  Go strings are modelled as Lean strings
(sequences of runes, that is, valid UTF-8), Go `error` values by their message
(`err.Error()`), and the side effects of the program (standard output, the
fatal log line, calls to the operating system and to the backend client) by
explicit passing of a `World` value.  `main` is embedded from the result of
`flag.Parse` on, and `parseFlags` gives that result for a command line.  Loops
become structurally recursive functions, one per loop of the source.
-/

namespace OnePsa

/-! ## Data model (the parts of the SDK types that `main.go` reads) -/

/-- A Go `error`, represented by its message. -/
abbrev Error := String

/-- Vault summary returned by `client.Vaults().List`. -/
structure Vault where
  ID : String
  Title : String
deriving DecidableEq, Repr

/-- Item overview returned by `client.Items().List`. -/
structure ItemOverview where
  ID : String
  Title : String
  Category : String
  Tags : List String
deriving DecidableEq, Repr

/-- Field of a full item. -/
structure ItemField where
  Title : String
  Value : String
deriving DecidableEq, Repr

/-- Full item returned by `client.Items().Get`. -/
structure Item where
  Title : String
  Fields : List ItemField
deriving DecidableEq, Repr

/-- Backend client: one fixed backend state, seen through the three calls
the program makes (`Vaults().List`, `Items().List`, `Items().Get`). -/
structure Client where
  vaultsList : Except Error (List Vault)
  itemsList : String → Except Error (List ItemOverview)
  itemsGet : String → String → Except Error Item

/-- Operating-system and SDK entry points used by `createClient`. -/
structure OS where
  userHomeDir : Except Error String
  pathJoin : String → String → String
  readFile : String → Except Error String
  newClient : String → String → String → Except Error Client

/-- Observable events, in the order in which they happen. -/
inductive Event where
  | userHomeDir
  | readFile (path : String)
  | newClient (token integrationName integrationVersion : String)
  | vaultsList
  | itemsList (vaultID : String)
  | itemsGet (vaultID itemID : String)
  | handleListCommand (itemName : String)
  | handleFieldCommand (itemName fieldName : String)
deriving DecidableEq, Repr

/-- The effects of a run: what was written to standard output, what was
written by `log.Fatalf` (without the timestamp that `log` puts in front), and
the events so far. -/
structure World where
  stdout : String
  stderr : String
  calls : List Event
deriving DecidableEq, Repr

/-- The world before the program starts. -/
def World.init : World := ⟨"", "", []⟩

/-- Effect of `fmt.Print(s)`. -/
def World.print (w : World) (s : String) : World :=
  { w with stdout := w.stdout ++ s }

/-- Effect of `fmt.Println(s)`. -/
def World.println (w : World) (s : String) : World :=
  w.print (s ++ "\n")

/-- Record an event. -/
def World.emit (w : World) (e : Event) : World :=
  { w with calls := w.calls ++ [e] }

/-- Whether an event is the entry of a command handler. -/
def Event.isHandler : Event → Bool
  | .handleListCommand _ => true
  | .handleFieldCommand _ _ => true
  | _ => false

/-! ## Go standard library functions used by the program -/

/-- Go `unicode.IsSpace`. -/
def isSpace (r : Char) : Bool :=
  if r.toNat ≤ 0xFF then
    r.toNat = 0x09 || r.toNat = 0x0A || r.toNat = 0x0B || r.toNat = 0x0C || r.toNat = 0x0D
      || r.toNat = 0x20 || r.toNat = 0x85 || r.toNat = 0xA0
  else
    r.toNat = 0x1680 || (0x2000 ≤ r.toNat && r.toNat ≤ 0x200A) || r.toNat = 0x2028
      || r.toNat = 0x2029 || r.toNat = 0x202F || r.toNat = 0x205F || r.toNat = 0x3000

/-- Go `strings.TrimLeftFunc`, on runes. -/
def TrimLeftFunc (s : List Char) (f : Char → Bool) : List Char :=
  s.dropWhile f

/-- Go `strings.TrimRightFunc`, on runes. -/
def TrimRightFunc (s : List Char) (f : Char → Bool) : List Char :=
  (s.reverse.dropWhile f).reverse

/-- Go `strings.TrimFunc`, on runes. -/
def TrimFunc (s : List Char) (f : Char → Bool) : List Char :=
  TrimRightFunc (TrimLeftFunc s f) f

/-- Go `strings.TrimSpace`. -/
def TrimSpace (s : String) : String :=
  String.mk (TrimFunc s.data isSpace)

/-- Go `strings.Repeat(s, count)` for a one-rune `s`. -/
def Repeat (c : Char) (count : Nat) : String :=
  String.mk (List.replicate count c)

/-- Go `strings.Join`. -/
def Join : List String → String → String
  | [], _ => ""
  | [a], _ => a
  | a :: b :: rest, sep => a ++ sep ++ Join (b :: rest) sep

/-- Go `len(s)`: the number of bytes of the UTF-8 encoding. -/
def len (s : String) : Nat := s.utf8ByteSize

/-- The loop of the general case of `strings.EqualFold`:
`for r != sr && r < tr { r = unicode.SimpleFold(r) }`, with the Unicode table
`simpleFold` a parameter.  The fuel is the number of code points. -/
def foldLoop (simpleFold : Char → Char) (sr tr : Char) : Nat → Char → Char
  | 0, r => r
  | fuel + 1, r =>
    if r ≠ sr ∧ r < tr then foldLoop simpleFold sr tr fuel (simpleFold r) else r

/-- One step of `strings.EqualFold`: whether the runes `s` and `t` are equal
under simple case folding. -/
def runeEqualFold (simpleFold : Char → Char) (s t : Char) : Bool :=
  if t = s then true
  else
    let sr := if t < s then t else s
    let tr := if t < s then s else t
    if tr.toNat < 0x80 then
      decide ('A' ≤ sr ∧ sr ≤ 'Z' ∧ tr.toNat = sr.toNat + ('a'.toNat - 'A'.toNat))
    else
      foldLoop simpleFold sr tr 0x110000 (simpleFold sr) = tr

/-- Rune-by-rune comparison of `strings.EqualFold`. -/
def equalFoldRunes (simpleFold : Char → Char) : List Char → List Char → Bool
  | [], [] => true
  | sr :: s, tr :: t => runeEqualFold simpleFold sr tr && equalFoldRunes simpleFold s t
  | _, _ => false

/-- Go `strings.EqualFold`. -/
def EqualFold (simpleFold : Char → Char) (s t : String) : Bool :=
  equalFoldRunes simpleFold s.data t.data

/-! ## The program -/

/-- The text printed by `showUsage`. -/
def usageText : String :=
  "Usage:\n"
    ++ "  1psa -l [item_name]         List credentials (optionally for specific item)\n"
    ++ "  1psa -f item_name field     Get specific field value from item\n"
    ++ "  1psa -u item_name           Get username from item\n"
    ++ "  1psa -p item_name           Get password from item\n"

/-- Source: `showUsage`. -/
def showUsage (w : World) : World :=
  ((((w.println "Usage:").println
    "  1psa -l [item_name]         List credentials (optionally for specific item)").println
    "  1psa -f item_name field     Get specific field value from item").println
    "  1psa -u item_name           Get username from item").println
    "  1psa -p item_name           Get password from item"

/-- Source: `createClient`. -/
def createClient (os : OS) (w : World) : Except Error Client × World :=
  let w := w.emit .userHomeDir
  match os.userHomeDir with
  | .error err => (.error ("failed to get user home directory: " ++ err), w)
  | .ok homeDir =>
    let tokenPath := os.pathJoin homeDir ".1psa"
    let w := w.emit (.readFile tokenPath)
    match os.readFile tokenPath with
    | .error err =>
      (.error ("failed to read service account token from " ++ tokenPath ++ ": " ++ err), w)
    | .ok tokenBytes =>
      let token := TrimSpace tokenBytes
      let w := w.emit (.newClient token "1psa" "v1.0.0")
      match os.newClient token "1psa" "v1.0.0" with
      | .error err => (.error ("failed to create client: " ++ err), w)
      | .ok client => (.ok client, w)

section Program

variable (simpleFold : Char → Char)

/-- The inner loop of `findItemByName` over the item overviews of one vault:
`some r` when the function returns `r` from inside the loop, `none` when the
loop runs to its end. -/
def findInItems (client : Client) (itemName : String) (vault : Vault) :
    List ItemOverview → World → Option (Except Error Item) × World
  | [], w => (none, w)
  | itemOverview :: rest, w =>
    if EqualFold simpleFold itemOverview.Title itemName then
      let w := w.emit (.itemsGet vault.ID itemOverview.ID)
      match client.itemsGet vault.ID itemOverview.ID with
      | .error err => (some (.error ("failed to get item details: " ++ err)), w)
      | .ok fullItem => (some (.ok fullItem), w)
    else findInItems client itemName vault rest w

/-- The outer loop of `findItemByName` over the vaults, with the final
`return nil, fmt.Errorf("item '%s' not found", itemName)`. -/
def findInVaults (client : Client) (itemName : String) :
    List Vault → World → Except Error Item × World
  | [], w => (.error ("item '" ++ itemName ++ "' not found"), w)
  | vault :: rest, w =>
    let w := w.emit (.itemsList vault.ID)
    match client.itemsList vault.ID with
    | .error _ => findInVaults client itemName rest w
    | .ok items =>
      match findInItems simpleFold client itemName vault items w with
      | (some r, w) => (r, w)
      | (none, w) => findInVaults client itemName rest w

/-- Source: `findItemByName`. -/
def findItemByName (client : Client) (itemName : String) (w : World) :
    Except Error Item × World :=
  let w := w.emit .vaultsList
  match client.vaultsList with
  | .error err => (.error ("failed to list vaults: " ++ err), w)
  | .ok vaults => findInVaults simpleFold client itemName vaults w

/-- The loop of `handleFieldCommand` over the fields: `some w` when a field
matched (its value was printed and the function returned `nil`), `none` when
the loop ran to its end. -/
def findField (fieldName : String) : List ItemField → World → Option World
  | [], _ => none
  | field :: rest, w =>
    if EqualFold simpleFold field.Title fieldName then some (w.println field.Value)
    else findField fieldName rest w

/-- Source: `handleFieldCommand`. -/
def handleFieldCommand (client : Client) (itemName fieldName : String) (w : World) :
    Option Error × World :=
  let w := w.emit (.handleFieldCommand itemName fieldName)
  match findItemByName simpleFold client itemName w with
  | (.error err, w) => (some err, w)
  | (.ok item, w) =>
    match findField simpleFold fieldName item.Fields w with
    | some w => (none, w)
    | none =>
      (some ("field '" ++ fieldName ++ "' not found in item '" ++ itemName ++ "'"), w)

/-- The loop of `listItemFields` over the fields; `i` is the loop index. -/
def printFields : Nat → List ItemField → World → World
  | _, [], w => w
  | i, field :: rest, w =>
    printFields (i + 1) rest (w.print (toString (i + 1) ++ ". " ++ field.Title ++ "\n"))

/-- Source: `listItemFields`. -/
def listItemFields (client : Client) (itemName : String) (w : World) :
    Option Error × World :=
  match findItemByName simpleFold client itemName w with
  | (.error err, w) => (some err, w)
  | (.ok item, w) =>
    let w := w.print ("Fields for item '" ++ item.Title ++ "':\n")
    let w := w.println (Repeat '-' (len item.Title + 20))
    if item.Fields.length = 0 then
      (none, w.println "No fields found in this item")
    else
      (none, printFields 0 item.Fields w)

/-- The loop of `handleListCommand` over the items of one vault; `i` is the
loop index. -/
def printItems : Nat → List ItemOverview → World → World
  | _, [], w => w
  | i, item :: rest, w =>
    let categoryStr := if item.Category ≠ "" then " Category: " ++ item.Category else ""
    let tagsStr := if item.Tags.length > 0 then " Tags: " ++ Join item.Tags ", " else ""
    printItems (i + 1) rest
      (w.print ("  " ++ toString (i + 1) ++ ". " ++ item.Title ++ " (ID: " ++ item.ID ++ ")"
        ++ categoryStr ++ tagsStr ++ "\n"))

/-- The loop of `handleListCommand` over the vaults. -/
def printVaults (client : Client) : List Vault → World → World
  | [], w => w
  | vault :: rest, w =>
    let w := w.print ("Vault: " ++ vault.Title ++ " (ID: " ++ vault.ID ++ ")\n")
    let w := w.println (Repeat '-' (len vault.Title + 20))
    let w := w.emit (.itemsList vault.ID)
    match client.itemsList vault.ID with
    | .error err =>
      printVaults client rest
        (w.print ("  Error listing items in vault " ++ vault.Title ++ ": " ++ err ++ "\n\n"))
    | .ok items =>
      let w :=
        if items.length = 0 then w.println "  No items found in this vault"
        else
          printItems 0 items
            (w.print ("  Found " ++ toString items.length ++ " item(s):\n"))
      printVaults client rest (w.println "")

/-- Source: `handleListCommand`. -/
def handleListCommand (client : Client) (itemName : String) (w : World) :
    Option Error × World :=
  let w := w.emit (.handleListCommand itemName)
  if itemName ≠ "" then listItemFields simpleFold client itemName w
  else
    let w := w.emit .vaultsList
    match client.vaultsList with
    | .error err => (some ("failed to list vaults: " ++ err), w)
    | .ok vaults =>
      if vaults.length = 0 then
        (none, w.println "No vaults accessible to this service account")
      else
        let w := w.print ("Found " ++ toString vaults.length
          ++ " vault(s) accessible to the service account:\n\n")
        (none, printVaults client vaults w)

/-- The parsed command line: the values of the four flags after `flag.Parse`
and the remaining positional arguments (`flag.Args`). -/
structure Flags where
  listFlag : Bool
  fieldFlag : Bool
  usernameFlag : String
  passwordFlag : String
  args : List String
deriving DecidableEq, Repr

/-- The `flagCount` computed by `main`. -/
def flagCount (fl : Flags) : Nat :=
  let flagCount := 0
  let flagCount := if fl.listFlag then flagCount + 1 else flagCount
  let flagCount := if fl.fieldFlag then flagCount + 1 else flagCount
  let flagCount := if fl.usernameFlag ≠ "" then flagCount + 1 else flagCount
  let flagCount := if fl.passwordFlag ≠ "" then flagCount + 1 else flagCount
  flagCount

/-- Effect of `log.Fatalf`: the message goes to standard error and the process
exits with status 1. -/
def logFatalf (msg : String) (w : World) : Nat × World :=
  (1, { w with stderr := w.stderr ++ msg ++ "\n" })

/-- The end of `main`: `if err != nil { log.Fatalf("Command failed: %v", err) }`,
otherwise a normal return (exit status 0). -/
def finish : Option Error × World → Nat × World
  | (some err, w) => logFatalf ("Command failed: " ++ err) w
  | (none, w) => (0, w)

/-- Source: `main`, from the parsed flags on.  The result is the exit status
of the process and the final world. -/
def main (fl : Flags) (os : OS) (w : World) : Nat × World :=
  if flagCount fl = 0 then (0, showUsage w)
  else if flagCount fl > 1 then
    (0, showUsage (w.println "Error: Only one flag can be used at a time"))
  else
    match createClient os w with
    | (.error err, w) => logFatalf ("Failed to create 1Password client: " ++ err) w
    | (.ok client, w) =>
      if fl.listFlag then
        let itemName := if fl.args.length > 0 then fl.args.getD 0 "" else ""
        finish (handleListCommand simpleFold client itemName w)
      else if fl.fieldFlag then
        if fl.args.length < 2 then
          (0, showUsage (w.println "Error: -f flag requires both item name and field name"))
        else
          finish (handleFieldCommand simpleFold client (fl.args.getD 0 "") (fl.args.getD 1 "") w)
      else if fl.usernameFlag ≠ "" then
        finish (handleFieldCommand simpleFold client fl.usernameFlag "username" w)
      else if fl.passwordFlag ≠ "" then
        finish (handleFieldCommand simpleFold client fl.passwordFlag "password" w)
      else finish (none, w)

end Program

/-- The command line as the operator gives it: for each of the four flags that
`main` declares, the value it is given when it is given at all (a boolean flag
given bare is `some true`, `-l=false` is `some false`, `-u ""` is `some ""`),
and the positional arguments. -/
structure CommandLine where
  l : Option Bool
  f : Option Bool
  u : Option String
  p : Option String
  args : List String
deriving DecidableEq, Repr

/-- Source: the head of `main`, `flag.Bool("l", false, ..)`, `flag.Bool("f",
false, ..)`, `flag.String("u", "", ..)`, `flag.String("p", "", ..)`,
`flag.Parse()` and `flag.Args()`: a flag that is not given keeps its declared
default. -/
def parseFlags (cl : CommandLine) : Flags :=
  ⟨cl.l.getD false, cl.f.getD false, cl.u.getD "", cl.p.getD "", cl.args⟩

/-! ## Output layouts, as the specification words them

These are compared with the output of the loops of `listItemFields` and
`handleListCommand`. -/

/-- Concatenation of a list of strings, in order. -/
def concat : List String → String
  | [] => ""
  | s :: rest => s ++ concat rest

/-- Layout of list-fields mode: the title header, the separator, and the field
titles numbered 1..n in field order, or the no-fields message when the item
has no field.  It is a function of the item title and the field titles. -/
def layoutFields (title : String) (titles : List String) : String :=
  "Fields for item '" ++ title ++ "':\n" ++ (Repeat '-' (len title + 20) ++ "\n")
    ++ (if titles = [] then "No fields found in this item\n"
        else concat (titles.enum.map (fun p => toString (p.1 + 1) ++ ". " ++ p.2 ++ "\n")))

/-- Layout of one item line of list-all mode: the ordinal `p.1 + 1`, the title,
the ID, and the category and the comma-joined tags when present. -/
def layoutItemLine (p : Nat × ItemOverview) : String :=
  "  " ++ toString (p.1 + 1) ++ ". " ++ p.2.Title ++ " (ID: " ++ p.2.ID ++ ")"
    ++ (if p.2.Category = "" then "" else " Category: " ++ p.2.Category)
    ++ (if p.2.Tags = [] then "" else " Tags: " ++ Join p.2.Tags ", ") ++ "\n"

/-- Layout of the part of list-all mode that follows the header of a vault:
the inline error line when list-items failed, the no-items line when it
returned zero items, otherwise the item lines numbered 1..n in listing order;
then an empty line. -/
def layoutVaultBody (vaultTitle : String) : Except Error (List ItemOverview) → String
  | .error err => "  Error listing items in vault " ++ vaultTitle ++ ": " ++ err ++ "\n\n"
  | .ok [] => "  No items found in this vault\n" ++ "\n"
  | .ok (item :: rest) =>
    "  Found " ++ toString (item :: rest).length ++ " item(s):\n"
      ++ concat ((item :: rest).enum.map layoutItemLine) ++ "\n"

/-- Layout of one vault of list-all mode: the header with title and ID, the
separator, and the body. -/
def layoutVault (client : Client) (vault : Vault) : String :=
  "Vault: " ++ vault.Title ++ " (ID: " ++ vault.ID ++ ")\n"
    ++ (Repeat '-' (len vault.Title + 20) ++ "\n")
    ++ layoutVaultBody vault.Title (client.itemsList vault.ID)

/-! ## Counting the mode flags of a command line -/

/-- Number of mode flags that are given on the command line. -/
def givenCount (cl : CommandLine) : Nat :=
  [cl.l.isSome, cl.f.isSome, cl.u.isSome, cl.p.isSome].count true

/-- Number of modes that are active on the command line: `-l` and `-f` given
as true, `-u` and `-p` given with a value that is not the empty string. -/
def activeCount (cl : CommandLine) : Nat :=
  [cl.l == some true, cl.f == some true,
    cl.u.any (fun v => decide (v ≠ "")), cl.p.any (fun v => decide (v ≠ ""))].count true

/-! ## Concrete backends and command lines -/

/-- A folding table for the examples: it pairs each ASCII letter with its
other case and leaves every other rune alone.  The examples are ASCII, where
`strings.EqualFold` does not consult the table. -/
def asciiFold (r : Char) : Char :=
  if 'A' ≤ r ∧ r ≤ 'Z' then Char.ofNat (r.toNat + 32)
  else if 'a' ≤ r ∧ r ≤ 'z' then Char.ofNat (r.toNat - 32)
  else r

/-- The full item behind "My Login". -/
def exItem : Item :=
  ⟨"My Login", [⟨"username", "phil"⟩, ⟨"password", "hunter2"⟩, ⟨"PASSWORD", "second"⟩]⟩

/-- A backend with two vaults that each hold an item titled "My Login" (up to
case), and a third vault whose items cannot be listed. -/
def exClient : Client where
  vaultsList := .ok [⟨"v0", "Locked"⟩, ⟨"v1", "Private"⟩, ⟨"v2", "Shared"⟩]
  itemsList := fun vid =>
    if vid = "v1" then
      .ok [⟨"i1", "Other", "Login", []⟩, ⟨"i2", "my login", "Login", ["a", "b"]⟩]
    else if vid = "v2" then .ok [⟨"i3", "My Login", "", []⟩]
    else .error "access denied"
  itemsGet := fun vid iid =>
    if vid = "v1" ∧ iid = "i2" then .ok exItem
    else if vid = "v2" ∧ iid = "i3" then .ok ⟨"My Login", [⟨"password", "other"⟩]⟩
    else .error "no such item"

/-- The backend `exClient` with the vault whose items cannot be listed removed
from the vault listing. -/
def exClientVisible : Client :=
  { exClient with vaultsList := .ok [⟨"v1", "Private"⟩, ⟨"v2", "Shared"⟩] }

/-- A backend whose vault listing fails. -/
def exClientDown : Client :=
  { exClient with vaultsList := .error "connection refused" }

/-- The backend `exClient` where the item "My Login" has a password field
only. -/
def exClientBare : Client :=
  { exClient with itemsGet := fun _ _ => .ok ⟨"My Login", [⟨"password", "hunter2"⟩]⟩ }

/-- An operating system whose home directory holds the token file
"abc123\n"; the SDK accepts the token "abc123" and hands out `client`. -/
def exOS (client : Client) : OS where
  userHomeDir := .ok "/home/phil"
  pathJoin := fun dir name => dir ++ "/" ++ name
  readFile := fun path =>
    if path = "/home/phil/.1psa" then .ok "abc123\n" else .error "no such file or directory"
  newClient := fun token _ _ =>
    if token = "abc123" then .ok client else .error "invalid service account token"

/-- An operating system without a token file. -/
def exOSNoToken : OS :=
  { exOS exClient with readFile := fun _ => .error "no such file or directory" }

/-- The backend `exClient` with other values in the fields of "My Login". -/
def exClientOther : Client :=
  { exClient with
    itemsGet := fun _ _ =>
      .ok ⟨"My Login", [⟨"username", "root"⟩, ⟨"password", "swordfish"⟩, ⟨"PASSWORD", "x"⟩]⟩ }

/-- A backend with a vault whose items cannot be listed, a vault with two
items and a vault without items. -/
def exClientList : Client :=
  { exClient with
    vaultsList := .ok [⟨"v0", "Locked"⟩, ⟨"v1", "Private"⟩, ⟨"v3", "Empty"⟩]
    itemsList := fun vid => if vid = "v3" then .ok [] else exClient.itemsList vid }

/-- A backend without vaults. -/
def exClientNoVaults : Client :=
  { exClient with vaultsList := .ok [] }

/-- An operating system whose token file holds only whitespace. -/
def exOSBlank : OS :=
  { exOS exClient with readFile := fun _ => .ok " \t\r\n\n" }

/-- A backend whose only item has the empty string as its title and no field
titled "username". -/
def exClientUntitled : Client where
  vaultsList := .ok [⟨"v1", "Private"⟩]
  itemsList := fun _ => .ok [⟨"i9", "", "", []⟩]
  itemsGet := fun _ _ => .ok ⟨"", [⟨"password", "hunter2"⟩]⟩


/-! ## Auxiliary facts -/

/-- A list with an element satisfying `p` splits at the first such element. -/
theorem exists_first_split {α : Type} (p : α → Bool) :
    ∀ l : List α, (∃ x ∈ l, p x = true) →
      ∃ l1 x l2, l = l1 ++ x :: l2 ∧ (∀ y ∈ l1, p y = false) ∧ p x = true
  | [], h => by
    obtain ⟨x, hx, _⟩ := h
    cases hx
  | a :: l, h => by
    cases hpa : p a with
    | true => exact ⟨[], a, l, rfl, by simp, hpa⟩
    | false =>
      have h2 : ∃ x ∈ l, p x = true := by
        obtain ⟨x, hx, hpx⟩ := h
        rcases List.mem_cons.mp hx with rfl | hx
        · rw [hpa] at hpx; cases hpx
        · exact ⟨x, hx, hpx⟩
      obtain ⟨l1, x, l2, hl, hno, hx⟩ := exists_first_split p l h2
      refine ⟨a :: l1, x, l2, by rw [hl]; rfl, ?_, hx⟩
      intro y hy
      rcases List.mem_cons.mp hy with rfl | hy
      · exact hpa
      · exact hno y hy

/-- The wrapped get-item error and the not-found error have
different messages. -/
theorem failed_ne_not_found (err itemName : String) :
    "failed to get item details: " ++ err ≠ "item '" ++ itemName ++ "' not found" := by
  intro h
  have h2 := congrArg (fun s : String => s.data.head?) h
  simp only [String.data_append, String.append_assoc] at h2
  simp at h2

/-- Trimming removes a run of `f`-runes at each end and nothing else. -/
theorem TrimFunc_split (f : Char → Bool) (s : List Char) :
    ∃ pre post, s = pre ++ TrimFunc s f ++ post ∧
      (∀ r ∈ pre, f r = true) ∧ (∀ r ∈ post, f r = true) := by
  refine ⟨s.takeWhile f, ((s.dropWhile f).reverse.takeWhile f).reverse, ?_, ?_, ?_⟩
  · have h1 : TrimFunc s f ++ ((s.dropWhile f).reverse.takeWhile f).reverse
        = s.dropWhile f := by
      have h2 := List.takeWhile_append_dropWhile f (s.dropWhile f).reverse
      have h3 := congrArg List.reverse h2
      rw [List.reverse_append, List.reverse_reverse] at h3
      exact h3
    rw [List.append_assoc, h1, List.takeWhile_append_dropWhile]
  · intro r hr
    exact List.mem_takeWhile_imp hr
  · intro r hr
    exact List.mem_takeWhile_imp (List.mem_reverse.mp hr)

/-- The trimmed string does not end with an `f`-rune. -/
theorem TrimFunc_last (f : Char → Bool) (s : List Char) (r : Char)
    (h : (TrimFunc s f).getLast? = some r) : f r = false := by
  simp only [TrimFunc, TrimRightFunc, TrimLeftFunc, List.getLast?_reverse] at h
  have h2 := List.head?_dropWhile_not f (s.dropWhile f).reverse
  rw [h] at h2
  exact h2

/-- The trimmed string does not start with an `f`-rune. -/
theorem TrimFunc_head (f : Char → Bool) (s : List Char) (r : Char)
    (h : (TrimFunc s f).head? = some r) : f r = false := by
  have h1 : TrimFunc s f ++ ((s.dropWhile f).reverse.takeWhile f).reverse
      = s.dropWhile f := by
    have h2 := List.takeWhile_append_dropWhile f (s.dropWhile f).reverse
    have h3 := congrArg List.reverse h2
    rw [List.reverse_append, List.reverse_reverse] at h3
    exact h3
  have h4 : (s.dropWhile f).head? = some r := by
    rw [← h1]
    cases ht : TrimFunc s f with
    | nil => rw [ht] at h; cases h
    | cons a t => rw [ht] at h; simpa using h
  have h5 := List.head?_dropWhile_not f s
  rw [h4] at h5
  exact h5

/-- A string of `f`-runes only is trimmed to the empty string. -/
theorem TrimFunc_all (f : Char → Bool) (s : List Char) (h : ∀ r ∈ s, f r = true) :
    TrimFunc s f = [] := by
  have h1 : s.dropWhile f = [] := List.dropWhile_eq_nil_iff.mpr h
  simp [TrimFunc, TrimRightFunc, TrimLeftFunc, h1]

/-- The counter of `main` counts the active modes of the command line. -/
theorem flagCount_parseFlags (cl : CommandLine) :
    flagCount (parseFlags cl) = activeCount cl := by
  rcases cl with ⟨l, f, u, p, args⟩
  rcases l with _ | _ | _ <;> rcases f with _ | _ | _ <;>
    rcases u with _ | u <;> rcases p with _ | p <;>
    simp [flagCount, parseFlags, activeCount] <;>
    (try by_cases hu : u = "") <;> (try by_cases hp : p = "") <;>
    simp_all

/-- Effect of `showUsage`: the usage text is appended to standard output. -/
theorem showUsage_eq (w : World) :
    showUsage w = { w with stdout := w.stdout ++ usageText } := by
  simp [showUsage, usageText, World.println, World.print, String.append_assoc]

/-- Effect of `createClient` on the world: it appends events, none of them a
handler entry, and its result does not depend on the world. -/
theorem createClient_frame (os : OS) :
    ∃ (r : Except Error Client) (es : List Event),
      (∀ e ∈ es, e.isHandler = false) ∧
      ∀ w : World, createClient os w = (r, { w with calls := w.calls ++ es }) := by
  cases hh : os.userHomeDir with
  | error err =>
    refine ⟨.error ("failed to get user home directory: " ++ err), [.userHomeDir], ?_,
      fun w => ?_⟩
    · simp [Event.isHandler]
    · simp [createClient, hh, World.emit]
  | ok homeDir =>
    cases hr : os.readFile (os.pathJoin homeDir ".1psa") with
    | error err =>
      refine ⟨.error ("failed to read service account token from "
          ++ os.pathJoin homeDir ".1psa" ++ ": " ++ err),
        [.userHomeDir, .readFile (os.pathJoin homeDir ".1psa")], ?_, fun w => ?_⟩
      · simp [Event.isHandler]
      · simp [createClient, hh, hr, World.emit]
    | ok tokenBytes =>
      cases hn : os.newClient (TrimSpace tokenBytes) "1psa" "v1.0.0" with
      | error err =>
        refine ⟨.error ("failed to create client: " ++ err),
          [.userHomeDir, .readFile (os.pathJoin homeDir ".1psa"),
            .newClient (TrimSpace tokenBytes) "1psa" "v1.0.0"], ?_, fun w => ?_⟩
        · simp [Event.isHandler]
        · simp [createClient, hh, hr, hn, World.emit]
      | ok client =>
        refine ⟨.ok client,
          [.userHomeDir, .readFile (os.pathJoin homeDir ".1psa"),
            .newClient (TrimSpace tokenBytes) "1psa" "v1.0.0"], ?_, fun w => ?_⟩
        · simp [Event.isHandler]
        · simp [createClient, hh, hr, hn, World.emit]

/-- What `createClient` leaves unchanged in the world. -/
theorem createClient_world (os : OS) (w w1 : World) (r : Except Error Client)
    (h : createClient os w = (r, w1)) :
    w1.stdout = w.stdout ∧ w1.stderr = w.stderr ∧
      ∀ e ∈ w1.calls, e ∈ w.calls ∨ e.isHandler = false := by
  obtain ⟨r2, es, hes, hframe⟩ := createClient_frame os
  rw [hframe w] at h
  injection h with _ hw
  subst hw
  refine ⟨rfl, rfl, fun e he => ?_⟩
  rcases List.mem_append.mp he with he | he
  · exact Or.inl he
  · exact Or.inr (hes e he)

/-- Output of the loop of `listItemFields`. -/
theorem printFields_eq :
    ∀ (fields : List ItemField) (i : Nat) (w : World),
      printFields i fields w =
        { w with stdout := w.stdout ++ concat (((fields.map (fun f => f.Title)).enumFrom i).map
            (fun p => toString (p.1 + 1) ++ ". " ++ p.2 ++ "\n")) }
  | [], _, _ => by simp [printFields, concat]
  | f :: rest, i, w => by
    simp [printFields, concat, printFields_eq rest (i + 1), World.print, String.append_assoc]

/-- Output of the inner loop of `handleListCommand`. -/
theorem printItems_eq :
    ∀ (items : List ItemOverview) (i : Nat) (w : World),
      printItems i items w =
        { w with stdout := w.stdout ++ concat ((items.enumFrom i).map layoutItemLine) }
  | [], _, _ => by simp [printItems, concat]
  | item :: rest, i, w => by
    simp only [printItems, printItems_eq rest (i + 1), World.print, List.enumFrom_cons,
      List.map_cons, concat, layoutItemLine]
    have hlen : (0 < item.Tags.length) ↔ ¬ item.Tags = [] := by
      cases item.Tags <;> simp
    by_cases hc : item.Category = "" <;> by_cases ht : item.Tags = [] <;>
      simp [hc, ht, hlen, String.append_assoc]

/-- Output and calls of the outer loop of `handleListCommand`. -/
theorem printVaults_eq (client : Client) :
    ∀ (vaults : List Vault) (w : World),
      printVaults client vaults w =
        { w with
          stdout := w.stdout ++ concat (vaults.map (layoutVault client))
          calls := w.calls ++ vaults.map (fun v => Event.itemsList v.ID) }
  | [], _ => by simp [printVaults, concat]
  | v :: rest, w => by
    simp only [printVaults, List.map_cons, concat, layoutVault]
    cases hv : client.itemsList v.ID with
    | error err =>
      simp [printVaults_eq client rest, layoutVaultBody, World.print, World.println, World.emit,
        String.append_assoc]
    | ok items =>
      cases items with
      | nil =>
        simp [printVaults_eq client rest, layoutVaultBody, World.print, World.println,
          World.emit, String.append_assoc]
      | cons item items =>
        simp [printVaults_eq client rest, printItems_eq, layoutVaultBody, World.print,
          World.println, World.emit, String.append_assoc, List.enum]

section Resolver

variable (simpleFold : Char → Char)

/-- Without a matching overview the inner loop of `findItemByName` runs to its
end and calls nothing. -/
theorem findInItems_none (client : Client) (itemName : String) (vault : Vault) :
    ∀ (items : List ItemOverview) (w : World),
      (∀ o ∈ items, EqualFold simpleFold o.Title itemName = false) →
      findInItems simpleFold client itemName vault items w = (none, w)
  | [], _, _ => rfl
  | o :: rest, w, h => by
    have ho : EqualFold simpleFold o.Title itemName = false := h o (List.mem_cons_self _ _)
    have hr := findInItems_none client itemName vault rest w
      (fun x hx => h x (List.mem_cons_of_mem _ hx))
    simp [findInItems, ho, hr]

/-- The inner loop of `findItemByName` stops at the first matching overview with
one get-item call. -/
theorem findInItems_first (client : Client) (itemName : String) (vault : Vault)
    (o : ItemOverview) (is2 : List ItemOverview)
    (ho : EqualFold simpleFold o.Title itemName = true) :
    ∀ (is1 : List ItemOverview) (w : World),
      (∀ x ∈ is1, EqualFold simpleFold x.Title itemName = false) →
      findInItems simpleFold client itemName vault (is1 ++ o :: is2) w =
        (some ((client.itemsGet vault.ID o.ID).mapError
            (fun err => "failed to get item details: " ++ err)),
          w.emit (.itemsGet vault.ID o.ID))
  | [], w, _ => by
    simp only [List.nil_append, findInItems, ho, if_true]
    cases client.itemsGet vault.ID o.ID <;> rfl
  | a :: rest, w, h => by
    have ha : EqualFold simpleFold a.Title itemName = false := h a (List.mem_cons_self _ _)
    have hr := findInItems_first client itemName vault o is2 ho rest w
      (fun x hx => h x (List.mem_cons_of_mem _ hx))
    simp only [List.cons_append, findInItems, ha]
    simpa using hr

/-- The inner loop of `findItemByName` reads the client through
`itemsGet` only. -/
theorem findInItems_congr (c1 c2 : Client) (hget : c2.itemsGet = c1.itemsGet)
    (itemName : String) (vault : Vault) :
    ∀ (items : List ItemOverview) (w : World),
      findInItems simpleFold c2 itemName vault items w =
        findInItems simpleFold c1 itemName vault items w
  | [], _ => rfl
  | o :: rest, w => by
    simp only [findInItems, hget, findInItems_congr c1 c2 hget itemName vault rest w]

/-- The outer loop of `findItemByName` reads the client through `itemsList` and
`itemsGet` only. -/
theorem findInVaults_congr (c1 c2 : Client) (hlist : c2.itemsList = c1.itemsList)
    (hget : c2.itemsGet = c1.itemsGet) (itemName : String) :
    ∀ (vaults : List Vault) (w : World),
      findInVaults simpleFold c2 itemName vaults w =
        findInVaults simpleFold c1 itemName vaults w
  | [], _ => rfl
  | v :: rest, w => by
    simp only [findInVaults, hlist, findInItems_congr simpleFold c1 c2 hget,
      findInVaults_congr c1 c2 hlist hget itemName rest]

/-- Vaults without a match (their items cannot be listed, or none matches) cost
one list-items call each and the scan goes on. -/
theorem findInVaults_skip (client : Client) (itemName : String) (rest : List Vault) :
    ∀ (vs1 : List Vault) (w : World),
      (∀ u ∈ vs1, ∀ items, client.itemsList u.ID = .ok items →
        ∀ x ∈ items, EqualFold simpleFold x.Title itemName = false) →
      findInVaults simpleFold client itemName (vs1 ++ rest) w =
        findInVaults simpleFold client itemName rest
          { w with calls := w.calls ++ vs1.map (fun u => Event.itemsList u.ID) }
  | [], w, _ => by simp
  | u :: vs1, w, h => by
    have ih := findInVaults_skip client itemName rest vs1 (w.emit (.itemsList u.ID))
      (fun x hx => h x (List.mem_cons_of_mem _ hx))
    have hw : ({ w.emit (.itemsList u.ID) with
          calls := (w.emit (.itemsList u.ID)).calls ++ vs1.map (fun u => Event.itemsList u.ID) }
          : World) =
        { w with calls := w.calls ++ (u :: vs1).map (fun u => Event.itemsList u.ID) } := by
      simp [World.emit]
    rw [hw] at ih
    cases hu : client.itemsList u.ID with
    | error err => simp only [List.cons_append, findInVaults, hu]; exact ih
    | ok items =>
      have hn := findInItems_none simpleFold client itemName u items (w.emit (.itemsList u.ID))
        (h u (List.mem_cons_self _ _) items hu)
      simp only [List.cons_append, findInVaults, hu, hn]
      exact ih

/-- Without a match in any vault the scan ends with the not-found error. -/
theorem findInVaults_not_found (client : Client) (itemName : String)
    (vaults : List Vault) (w : World)
    (h : ∀ u ∈ vaults, ∀ items, client.itemsList u.ID = .ok items →
        ∀ x ∈ items, EqualFold simpleFold x.Title itemName = false) :
    findInVaults simpleFold client itemName vaults w =
      (.error ("item '" ++ itemName ++ "' not found"),
        { w with calls := w.calls ++ vaults.map (fun u => Event.itemsList u.ID) }) := by
  have hs := findInVaults_skip simpleFold client itemName [] vaults w h
  rw [List.append_nil] at hs
  rw [hs]
  rfl

/-- Result and calls of the scan when the first match is the overview `o` of the
vault `v`. -/
theorem findInVaults_first (client : Client) (itemName : String)
    (vs1 vs2 : List Vault) (v : Vault) (is1 is2 : List ItemOverview) (o : ItemOverview)
    (w : World)
    (h1 : ∀ u ∈ vs1, ∀ items, client.itemsList u.ID = .ok items →
        ∀ x ∈ items, EqualFold simpleFold x.Title itemName = false)
    (hv : client.itemsList v.ID = .ok (is1 ++ o :: is2))
    (h2 : ∀ x ∈ is1, EqualFold simpleFold x.Title itemName = false)
    (ho : EqualFold simpleFold o.Title itemName = true) :
    findInVaults simpleFold client itemName (vs1 ++ v :: vs2) w =
      ((client.itemsGet v.ID o.ID).mapError (fun err => "failed to get item details: " ++ err),
        { w with calls := w.calls ++ (vs1.map (fun u => Event.itemsList u.ID)
            ++ [Event.itemsList v.ID, Event.itemsGet v.ID o.ID]) }) := by
  rw [findInVaults_skip simpleFold client itemName (v :: vs2) vs1 w h1]
  simp only [findInVaults, hv]
  rw [findInItems_first simpleFold client itemName v o is2 ho is1 _ h2]
  simp [World.emit]

/-- When some vault that can be listed holds a match, the listing splits at the
first such vault and its items at the first match. -/
theorem exists_first_vault (client : Client) (itemName : String) (vaults : List Vault)
    (h : ∃ v ∈ vaults, ∃ items, client.itemsList v.ID = .ok items ∧
        ∃ o ∈ items, EqualFold simpleFold o.Title itemName = true) :
    ∃ vs1 v vs2 is1 o is2, vaults = vs1 ++ v :: vs2 ∧
      (∀ u ∈ vs1, ∀ items, client.itemsList u.ID = .ok items →
        ∀ x ∈ items, EqualFold simpleFold x.Title itemName = false) ∧
      client.itemsList v.ID = .ok (is1 ++ o :: is2) ∧
      (∀ x ∈ is1, EqualFold simpleFold x.Title itemName = false) ∧
      EqualFold simpleFold o.Title itemName = true := by
  let q : ItemOverview → Bool := fun o => EqualFold simpleFold o.Title itemName
  let p : Vault → Bool := fun v =>
    match client.itemsList v.ID with
    | .ok items => items.any q
    | .error _ => false
  have hp : ∃ v ∈ vaults, p v = true := by
    obtain ⟨v, hv, items, hi, o, ho, hm⟩ := h
    refine ⟨v, hv, ?_⟩
    simp only [p, hi, List.any_eq_true]
    exact ⟨o, ho, hm⟩
  obtain ⟨vs1, v, vs2, hsplit, hno, hyes⟩ := exists_first_split p vaults hp
  cases hv : client.itemsList v.ID with
  | error err => simp [p, hv] at hyes
  | ok items =>
    have hq : ∃ o ∈ items, q o = true := by
      simpa [p, hv, List.any_eq_true] using hyes
    obtain ⟨is1, o, is2, hisplit, hino, hiyes⟩ := exists_first_split q items hq
    refine ⟨vs1, v, vs2, is1, o, is2, hsplit, ?_, hisplit ▸ hv, hino, hiyes⟩
    intro u hu items2 hi2 x hx
    have hpu := hno u hu
    simp only [p, hi2] at hpu
    have := List.any_eq_false.mp hpu x hx
    simpa [q] using this

/-- After a successful list-vaults, `findItemByName` is the scan of
the vaults. -/
theorem findItemByName_ok (client : Client) (itemName : String) (vaults : List Vault)
    (w : World) (hv : client.vaultsList = .ok vaults) :
    findItemByName simpleFold client itemName w =
      findInVaults simpleFold client itemName vaults (w.emit .vaultsList) := by
  simp [findItemByName, hv]

/-- Effect of `findItemByName` on the world: it appends events and prints
nothing, and its result does not depend on the world. -/
theorem findItemByName_frame (client : Client) (itemName : String) :
    ∃ (r : Except Error Item) (es : List Event), ∀ w : World,
      findItemByName simpleFold client itemName w = (r, { w with calls := w.calls ++ es }) := by
  cases hv : client.vaultsList with
  | error err =>
    refine ⟨.error ("failed to list vaults: " ++ err), [.vaultsList], fun w => ?_⟩
    simp [findItemByName, hv, World.emit]
  | ok vaults =>
    by_cases hm : ∃ v ∈ vaults, ∃ items, client.itemsList v.ID = .ok items ∧
        ∃ o ∈ items, EqualFold simpleFold o.Title itemName = true
    · obtain ⟨vs1, v, vs2, is1, o, is2, hsplit, h1, hi, h2, ho⟩ :=
        exists_first_vault simpleFold client itemName vaults hm
      refine ⟨(client.itemsGet v.ID o.ID).mapError
          (fun err => "failed to get item details: " ++ err),
        Event.vaultsList :: (vs1.map (fun u => Event.itemsList u.ID)
            ++ [Event.itemsList v.ID, Event.itemsGet v.ID o.ID]), fun w => ?_⟩
      rw [findItemByName_ok simpleFold client itemName vaults w hv, hsplit,
        findInVaults_first simpleFold client itemName vs1 vs2 v is1 is2 o _ h1 hi h2 ho]
      simp [World.emit]
    · have hno : ∀ u ∈ vaults, ∀ items, client.itemsList u.ID = .ok items →
          ∀ x ∈ items, EqualFold simpleFold x.Title itemName = false := by
        intro u hu items hi x hx
        cases hx2 : EqualFold simpleFold x.Title itemName with
        | false => rfl
        | true => exact absurd ⟨u, hu, items, hi, x, hx, hx2⟩ hm
      refine ⟨.error ("item '" ++ itemName ++ "' not found"),
        Event.vaultsList :: vaults.map (fun u => Event.itemsList u.ID), fun w => ?_⟩
      rw [findItemByName_ok simpleFold client itemName vaults w hv,
        findInVaults_not_found simpleFold client itemName vaults _ hno]
      simp [World.emit]

/-- Without a matching field the loop of `handleFieldCommand` runs to
its end. -/
theorem findField_none (fieldName : String) :
    ∀ (fields : List ItemField) (w : World),
      (∀ f ∈ fields, EqualFold simpleFold f.Title fieldName = false) →
      findField simpleFold fieldName fields w = none
  | [], _, _ => rfl
  | f :: rest, w, h => by
    have hf : EqualFold simpleFold f.Title fieldName = false := h f (List.mem_cons_self _ _)
    have hr := findField_none fieldName rest w (fun x hx => h x (List.mem_cons_of_mem _ hx))
    simp [findField, hf, hr]

/-- The loop of `handleFieldCommand` prints the value of the first matching
field. -/
theorem findField_first (fieldName : String) (f : ItemField) (post : List ItemField)
    (hf : EqualFold simpleFold f.Title fieldName = true) :
    ∀ (pre : List ItemField) (w : World),
      (∀ g ∈ pre, EqualFold simpleFold g.Title fieldName = false) →
      findField simpleFold fieldName (pre ++ f :: post) w = some (w.println f.Value)
  | [], w, _ => by simp [findField, hf]
  | g :: pre, w, h => by
    have hg : EqualFold simpleFold g.Title fieldName = false := h g (List.mem_cons_self _ _)
    have hr := findField_first fieldName f post hf pre w
      (fun x hx => h x (List.mem_cons_of_mem _ hx))
    simp [findField, hg, hr]

/-- A resolution in one world is a resolution in every world. -/
theorem findItemByName_resolved (client : Client) (itemName : String) (item : Item)
    (w0 : World) (hres : (findItemByName simpleFold client itemName w0).1 = .ok item) :
    ∃ es : List Event, ∀ w : World,
      findItemByName simpleFold client itemName w =
        (.ok item, { w with calls := w.calls ++ es }) := by
  obtain ⟨r, es, hframe⟩ := findItemByName_frame simpleFold client itemName
  rw [hframe w0] at hres
  simp only at hres
  subst hres
  exact ⟨es, hframe⟩

/-- Run of `handleFieldCommand` when the first matching field is `f`. -/
theorem handleFieldCommand_found (client : Client) (itemName fieldName : String)
    (item : Item) (w0 : World) (pre post : List ItemField) (f : ItemField)
    (hres : (findItemByName simpleFold client itemName w0).1 = .ok item)
    (hsplit : item.Fields = pre ++ f :: post)
    (hpre : ∀ g ∈ pre, EqualFold simpleFold g.Title fieldName = false)
    (hf : EqualFold simpleFold f.Title fieldName = true) :
    ∃ es : List Event, ∀ w : World,
      handleFieldCommand simpleFold client itemName fieldName w =
        (none, { w with
          stdout := w.stdout ++ (f.Value ++ "\n")
          calls := w.calls ++ Event.handleFieldCommand itemName fieldName :: es }) := by
  obtain ⟨es, hframe⟩ := findItemByName_resolved simpleFold client itemName item w0 hres
  refine ⟨es, fun w => ?_⟩
  simp only [handleFieldCommand, hframe, hsplit,
    findField_first simpleFold fieldName f post hf pre _ hpre]
  simp [World.emit, World.println, World.print]

/-- Run of `handleFieldCommand` when no field matches. -/
theorem handleFieldCommand_missing (client : Client) (itemName fieldName : String)
    (item : Item) (w0 : World)
    (hres : (findItemByName simpleFold client itemName w0).1 = .ok item)
    (hno : ∀ g ∈ item.Fields, EqualFold simpleFold g.Title fieldName = false) :
    ∃ es : List Event, ∀ w : World,
      handleFieldCommand simpleFold client itemName fieldName w =
        (some ("field '" ++ fieldName ++ "' not found in item '" ++ itemName ++ "'"),
          { w with calls := w.calls ++ Event.handleFieldCommand itemName fieldName :: es }) := by
  obtain ⟨es, hframe⟩ := findItemByName_resolved simpleFold client itemName item w0 hres
  refine ⟨es, fun w => ?_⟩
  simp only [handleFieldCommand, hframe, findField_none simpleFold fieldName _ _ hno]
  simp [World.emit]

/-- Effect of `handleFieldCommand` on the world, whatever its outcome: its entry
is the first event it appends. -/
theorem handleFieldCommand_frame (client : Client) (itemName fieldName : String) :
    ∃ (r : Option Error) (out : String) (es : List Event), ∀ w : World,
      handleFieldCommand simpleFold client itemName fieldName w =
        (r, { w with
          stdout := w.stdout ++ out
          calls := w.calls ++ Event.handleFieldCommand itemName fieldName :: es }) := by
  obtain ⟨r, es, hframe⟩ := findItemByName_frame simpleFold client itemName
  cases r with
  | error err =>
    refine ⟨some err, "", es, fun w => ?_⟩
    simp [handleFieldCommand, hframe, World.emit]
  | ok item =>
    have hres : (findItemByName simpleFold client itemName World.init).1 = .ok item := by
      rw [hframe]
    by_cases hm : ∃ f ∈ item.Fields, EqualFold simpleFold f.Title fieldName = true
    · obtain ⟨pre, f, post, hsplit, hpre, hf⟩ :=
        exists_first_split (fun g : ItemField => EqualFold simpleFold g.Title fieldName)
          item.Fields hm
      obtain ⟨es2, hrun⟩ := handleFieldCommand_found simpleFold client itemName fieldName
        item World.init pre post f hres hsplit hpre hf
      exact ⟨none, f.Value ++ "\n", es2, hrun⟩
    · have hno : ∀ g ∈ item.Fields, EqualFold simpleFold g.Title fieldName = false := by
        intro g hg
        cases hg2 : EqualFold simpleFold g.Title fieldName with
        | false => rfl
        | true => exact absurd ⟨g, hg, hg2⟩ hm
      obtain ⟨es2, hrun⟩ := handleFieldCommand_missing simpleFold client itemName fieldName
        item World.init hres hno
      refine ⟨some ("field '" ++ fieldName ++ "' not found in item '" ++ itemName ++ "'"),
        "", es2, fun w => ?_⟩
      rw [hrun w]
      simp

/-- The end of `main` adds no event. -/
theorem finish_calls (x : Option Error × World) : (finish x).2.calls = x.2.calls := by
  rcases x with ⟨_ | err, w⟩ <;> rfl

/-- Run of `listItemFields` on a resolved item. -/
theorem listItemFields_eq (client : Client) (itemName : String) (item : Item) (w0 : World)
    (hres : (findItemByName simpleFold client itemName w0).1 = .ok item) :
    ∃ es : List Event, ∀ w : World,
      listItemFields simpleFold client itemName w =
        (none, { w with
          stdout := w.stdout ++ layoutFields item.Title (item.Fields.map (fun f => f.Title))
          calls := w.calls ++ es }) := by
  obtain ⟨es, hframe⟩ := findItemByName_resolved simpleFold client itemName item w0 hres
  refine ⟨es, fun w => ?_⟩
  simp only [listItemFields, hframe]
  cases hfields : item.Fields with
  | nil => simp [layoutFields, World.println, World.print, String.append_assoc]
  | cons f rest =>
    simp [layoutFields, printFields_eq, World.println, World.print, String.append_assoc,
      List.enum]

/-- Run of `main` through `-u` or `-p` when the resolved item lacks
the field. -/
theorem main_shortcut (fl : Flags) (os : OS) (client : Client) (w1 : World)
    (itemName fieldName : String) (item : Item)
    (hcount : flagCount fl = 1) (hl : fl.listFlag = false) (hf : fl.fieldFlag = false)
    (hbranch : (fl.usernameFlag ≠ "" ∧ fl.usernameFlag = itemName ∧ fieldName = "username") ∨
      (fl.usernameFlag = "" ∧ fl.passwordFlag ≠ "" ∧ fl.passwordFlag = itemName ∧
        fieldName = "password"))
    (hc : createClient os World.init = (.ok client, w1))
    (hres : (findItemByName simpleFold client itemName World.init).1 = .ok item)
    (hno : ∀ g ∈ item.Fields, EqualFold simpleFold g.Title fieldName = false) :
    (main simpleFold fl os World.init).1 = 1 ∧
      (main simpleFold fl os World.init).2.stdout = "" ∧
      (main simpleFold fl os World.init).2.stderr =
        "Command failed: " ++ ("field '" ++ fieldName ++ "' not found in item '"
          ++ itemName ++ "'") ++ "\n" := by
  obtain ⟨es, hrun⟩ := handleFieldCommand_missing simpleFold client itemName fieldName item
    World.init hres hno
  obtain ⟨hout, herr, _⟩ := createClient_world os World.init w1 (.ok client) hc
  have hmain : main simpleFold fl os World.init =
      finish (handleFieldCommand simpleFold client itemName fieldName w1) := by
    rcases hbranch with ⟨hu, hu2, hfn⟩ | ⟨hu, hp, hp2, hfn⟩
    · subst hu2 hfn
      simp [main, hcount, hc, hl, hf, hu]
    · subst hp2 hfn
      simp [main, hcount, hc, hl, hf, hu, hp]
  rw [hmain, hrun w1]
  simp [finish, logFatalf, hout, herr, World.init]

end Resolver

/-! ## The claims -/

section Claims

variable (simpleFold : Char → Char)

/-- C1: when list-vaults and every per-vault list-items call succeed and some
item overview has a Title equal to the name case-insensitively, the vault
listing splits at the first vault `v` holding a match and the items of `v` at
the first matching overview `o`; `findItemByName` returns the result of
get-item(`v.ID`, `o.ID`) (the item, or the get-item error behind the words
"failed to get item details: "), and the calls it issues are list-vaults,
list-items for the vaults up to and including `v` and for none after it, and
that single get-item. -/
theorem findItemByName_first_match (client : Client) (itemName : String)
    (vaults : List Vault) (w : World)
    (hv : client.vaultsList = .ok vaults)
    (hall : ∀ u ∈ vaults, ∃ items, client.itemsList u.ID = .ok items)
    (hex : ∃ u ∈ vaults, ∃ items, client.itemsList u.ID = .ok items ∧
      ∃ x ∈ items, EqualFold simpleFold x.Title itemName = true) :
    ∃ vs1 v vs2 is1 o is2,
      vaults = vs1 ++ v :: vs2 ∧
      (∀ u ∈ vs1, ∃ items, client.itemsList u.ID = .ok items ∧
        ∀ x ∈ items, EqualFold simpleFold x.Title itemName = false) ∧
      client.itemsList v.ID = .ok (is1 ++ o :: is2) ∧
      (∀ x ∈ is1, EqualFold simpleFold x.Title itemName = false) ∧
      EqualFold simpleFold o.Title itemName = true ∧
      (findItemByName simpleFold client itemName w).1 =
        (client.itemsGet v.ID o.ID).mapError
          (fun err => "failed to get item details: " ++ err) ∧
      (findItemByName simpleFold client itemName w).2.stdout = w.stdout ∧
      (findItemByName simpleFold client itemName w).2.calls =
        w.calls ++ ([Event.vaultsList] ++ vs1.map (fun u => Event.itemsList u.ID)
          ++ [Event.itemsList v.ID, Event.itemsGet v.ID o.ID]) := by
  obtain ⟨vs1, v, vs2, is1, o, is2, hsplit, h1, hi, h2, ho⟩ :=
    exists_first_vault simpleFold client itemName vaults hex
  have hrun := findInVaults_first simpleFold client itemName vs1 vs2 v is1 is2 o
    (w.emit .vaultsList) h1 hi h2 ho
  rw [← hsplit, ← findItemByName_ok simpleFold client itemName vaults w hv] at hrun
  refine ⟨vs1, v, vs2, is1, o, is2, hsplit, ?_, hi, h2, ho, ?_, ?_, ?_⟩
  · intro u hu
    obtain ⟨items, hitems⟩ := hall u (by rw [hsplit]; exact List.mem_append_left _ hu)
    exact ⟨items, hitems, h1 u hu items hitems⟩
  · rw [hrun]
  · rw [hrun]; rfl
  · rw [hrun]; simp [World.emit]

/-- C1 at the backend `exClientVisible`: two vaults hold an item titled
"My Login" up to case, and the one of the vault listed first is returned. -/
theorem findItemByName_first_match_witness :
    exClientVisible.vaultsList = .ok [⟨"v1", "Private"⟩, ⟨"v2", "Shared"⟩] ∧
    (findItemByName asciiFold exClientVisible "My Login" World.init).1 = .ok exItem ∧
    ∃ vs1 v vs2 is1 o is2,
      [(⟨"v1", "Private"⟩ : Vault), ⟨"v2", "Shared"⟩] = vs1 ++ v :: vs2 ∧
      (∀ u ∈ vs1, ∃ items, exClientVisible.itemsList u.ID = .ok items ∧
        ∀ x ∈ items, EqualFold asciiFold x.Title "My Login" = false) ∧
      exClientVisible.itemsList v.ID = .ok (is1 ++ o :: is2) ∧
      (∀ x ∈ is1, EqualFold asciiFold x.Title "My Login" = false) ∧
      EqualFold asciiFold o.Title "My Login" = true ∧
      (findItemByName asciiFold exClientVisible "My Login" World.init).1 =
        (exClientVisible.itemsGet v.ID o.ID).mapError
          (fun err => "failed to get item details: " ++ err) ∧
      (findItemByName asciiFold exClientVisible "My Login" World.init).2.stdout
        = World.init.stdout ∧
      (findItemByName asciiFold exClientVisible "My Login" World.init).2.calls =
        World.init.calls ++ ([Event.vaultsList] ++ vs1.map (fun u => Event.itemsList u.ID)
          ++ [Event.itemsList v.ID, Event.itemsGet v.ID o.ID]) :=
  ⟨rfl, rfl,
    findItemByName_first_match asciiFold exClientVisible "My Login"
      [⟨"v1", "Private"⟩, ⟨"v2", "Shared"⟩] World.init rfl
      (by
        intro u hu
        simp only [List.mem_cons, List.mem_singleton, List.not_mem_nil, or_false] at hu
        rcases hu with rfl | rfl
        · exact ⟨_, rfl⟩
        · exact ⟨_, rfl⟩)
      ⟨⟨"v2", "Shared"⟩, by simp, _, rfl, ⟨"i3", "My Login", "", []⟩, by simp, by decide⟩⟩

/-- C2: when list-vaults succeeds, the result of `findItemByName` (the item or
the error) is the result it has against the backend whose vault listing keeps
only the vaults whose list-items call succeeds and which is otherwise the
same: a vault whose items cannot be listed is skipped and the scan goes on. -/
theorem findItemByName_skips_failed_vaults (client : Client) (itemName : String)
    (vaults : List Vault) (w : World)
    (hv : client.vaultsList = .ok vaults) :
    (findItemByName simpleFold client itemName w).1 =
      (findItemByName simpleFold
        { client with
          vaultsList := .ok (vaults.filter (fun v => (client.itemsList v.ID).toBool)) }
        itemName w).1 := by
  rw [findItemByName_ok simpleFold client itemName vaults w hv,
    findItemByName_ok simpleFold _ itemName
      (vaults.filter (fun v => (client.itemsList v.ID).toBool)) w rfl,
    findInVaults_congr simpleFold client
      { client with
        vaultsList := .ok (vaults.filter (fun v => (client.itemsList v.ID).toBool)) }
      rfl rfl]
  by_cases hm : ∃ v ∈ vaults, ∃ items, client.itemsList v.ID = .ok items ∧
      ∃ o ∈ items, EqualFold simpleFold o.Title itemName = true
  · obtain ⟨vs1, v, vs2, is1, o, is2, hsplit, h1, hi, h2, ho⟩ :=
      exists_first_vault simpleFold client itemName vaults hm
    have hkeep : (client.itemsList v.ID).toBool = true := by rw [hi]; rfl
    have hfilter : vaults.filter (fun v => (client.itemsList v.ID).toBool) =
        vs1.filter (fun v => (client.itemsList v.ID).toBool) ++
          v :: vs2.filter (fun v => (client.itemsList v.ID).toBool) := by
      rw [hsplit, List.filter_append]
      simp [List.filter_cons, hkeep]
    rw [hfilter,
      findInVaults_first simpleFold client itemName _ _ v is1 is2 o _
        (fun u hu items hitems => h1 u (List.mem_filter.mp hu).1 items hitems) hi h2 ho,
      hsplit, findInVaults_first simpleFold client itemName vs1 vs2 v is1 is2 o _ h1 hi h2 ho]
  · have hno : ∀ u ∈ vaults, ∀ items, client.itemsList u.ID = .ok items →
        ∀ x ∈ items, EqualFold simpleFold x.Title itemName = false := by
      intro u hu items hitems x hx
      cases hx2 : EqualFold simpleFold x.Title itemName with
      | false => rfl
      | true => exact absurd ⟨u, hu, items, hitems, x, hx, hx2⟩ hm
    rw [findInVaults_not_found simpleFold client itemName vaults _ hno,
      findInVaults_not_found simpleFold client itemName _ _
        (fun u hu items hitems => hno u (List.mem_filter.mp hu).1 items hitems)]

/-- C2 at the backend `exClient`, whose first vault cannot be listed: the item
found is the one found against `exClientVisible`, where that vault is not
listed at all. -/
theorem findItemByName_skips_failed_vaults_witness :
    exClient.vaultsList = .ok [⟨"v0", "Locked"⟩, ⟨"v1", "Private"⟩, ⟨"v2", "Shared"⟩] ∧
    exClient.itemsList "v0" = .error "access denied" ∧
    (findItemByName asciiFold exClientVisible "My Login" World.init).1 = .ok exItem ∧
    (findItemByName asciiFold exClient "My Login" World.init).1 =
      (findItemByName asciiFold
        { exClient with
          vaultsList := .ok (([⟨"v0", "Locked"⟩, ⟨"v1", "Private"⟩, ⟨"v2", "Shared"⟩] :
            List Vault).filter (fun v => (exClient.itemsList v.ID).toBool)) }
        "My Login" World.init).1 :=
  ⟨rfl, rfl, rfl,
    findItemByName_skips_failed_vaults asciiFold exClient "My Login"
      [⟨"v0", "Locked"⟩, ⟨"v1", "Private"⟩, ⟨"v2", "Shared"⟩] World.init rfl⟩

/-- C3: when list-vaults succeeds, `findItemByName` fails with the error
"item '<name>' not found" if and only if no vault whose list-items call
succeeds holds an item overview whose Title equals the name
case-insensitively; and when list-vaults fails, it fails with the list-vaults
error after that one call, with no list-items and no get-item call. -/
theorem findItemByName_not_found_iff (client : Client) (itemName : String) (w : World) :
    (∀ vaults, client.vaultsList = .ok vaults →
      ((findItemByName simpleFold client itemName w).1 =
          .error ("item '" ++ itemName ++ "' not found") ↔
        ∀ v ∈ vaults, ∀ items, client.itemsList v.ID = .ok items →
          ∀ o ∈ items, EqualFold simpleFold o.Title itemName = false)) ∧
    (∀ err, client.vaultsList = .error err →
      (findItemByName simpleFold client itemName w).1 =
          .error ("failed to list vaults: " ++ err) ∧
        (findItemByName simpleFold client itemName w).2.stdout = w.stdout ∧
        (findItemByName simpleFold client itemName w).2.calls =
          w.calls ++ [Event.vaultsList]) := by
  constructor
  · intro vaults hv
    rw [findItemByName_ok simpleFold client itemName vaults w hv]
    constructor
    · intro hres v hvm items hitems o ho
      cases hmatch : EqualFold simpleFold o.Title itemName with
      | false => rfl
      | true =>
        exfalso
        obtain ⟨vs1, v2, vs2, is1, o2, is2, hsplit, h1, hi, h2, ho2⟩ :=
          exists_first_vault simpleFold client itemName vaults
            ⟨v, hvm, items, hitems, o, ho, hmatch⟩
        rw [hsplit, findInVaults_first simpleFold client itemName vs1 vs2 v2 is1 is2 o2 _
          h1 hi h2 ho2] at hres
        cases hget : client.itemsGet v2.ID o2.ID with
        | ok item => rw [hget] at hres; cases hres
        | error err =>
          rw [hget] at hres
          simp only [Except.mapError] at hres
          injection hres with hmsg
          exact failed_ne_not_found err itemName hmsg
    · intro hno
      rw [findInVaults_not_found simpleFold client itemName vaults _ hno]
  · intro err hv
    simp [findItemByName, hv, World.emit]

/-- C3 at the backends `exClient` (the item "Nothing" is in no vault that can
be listed) and `exClientDown` (list-vaults fails). -/
theorem findItemByName_not_found_iff_witness :
    (findItemByName asciiFold exClient "Nothing" World.init).1 =
      .error "item 'Nothing' not found" ∧
    ((findItemByName asciiFold exClient "Nothing" World.init).1 =
        .error ("item '" ++ "Nothing" ++ "' not found") ↔
      ∀ v ∈ ([⟨"v0", "Locked"⟩, ⟨"v1", "Private"⟩, ⟨"v2", "Shared"⟩] : List Vault),
        ∀ items, exClient.itemsList v.ID = .ok items →
          ∀ o ∈ items, EqualFold asciiFold o.Title "Nothing" = false) ∧
    ((findItemByName asciiFold exClientDown "My Login" World.init).1 =
        .error ("failed to list vaults: " ++ "connection refused") ∧
      (findItemByName asciiFold exClientDown "My Login" World.init).2.stdout
        = World.init.stdout ∧
      (findItemByName asciiFold exClientDown "My Login" World.init).2.calls =
        World.init.calls ++ [Event.vaultsList]) :=
  ⟨rfl,
    (findItemByName_not_found_iff asciiFold exClient "Nothing" World.init).1 _ rfl,
    (findItemByName_not_found_iff asciiFold exClientDown "My Login" World.init).2 _ rfl⟩

/-- C4, the code at the example of the claim: item "My Login" has a field
"password" with value "hunter2" and the requested field is "Password";
standard output is the value followed by a newline, not the value alone. -/
theorem handleFieldCommand_stdout_counterexample :
    (findItemByName asciiFold exClient "My Login" World.init).1 = .ok exItem ∧
    (⟨"password", "hunter2"⟩ : ItemField) ∈ exItem.Fields ∧
    EqualFold asciiFold "password" "Password" = true ∧
    (handleFieldCommand asciiFold exClient "My Login" "Password" World.init).1 = none ∧
    (handleFieldCommand asciiFold exClient "My Login" "Password" World.init).2.stdout
      = "hunter2\n" ∧
    (handleFieldCommand asciiFold exClient "My Login" "Password" World.init).2.stdout
      ≠ "hunter2" := by
  refine ⟨rfl, by decide, by decide, by decide, by decide, by decide⟩

/-- C4 as amended: when `findItemByName` resolves the item name to an item
with at least one field whose Title equals the field name case-insensitively,
`handleFieldCommand` returns no error and standard output is exactly the
Value of the first such field in field order, raw, followed by one newline;
"Password", "password" and "PASSWORD" all match a field titled "password". -/
theorem handleFieldCommand_prints_first_match (client : Client)
    (itemName fieldName : String) (item : Item)
    (hres : (findItemByName simpleFold client itemName World.init).1 = .ok item)
    (hex : ∃ f ∈ item.Fields, EqualFold simpleFold f.Title fieldName = true) :
    (∃ pre f post, item.Fields = pre ++ f :: post ∧
      (∀ g ∈ pre, EqualFold simpleFold g.Title fieldName = false) ∧
      EqualFold simpleFold f.Title fieldName = true ∧
      (handleFieldCommand simpleFold client itemName fieldName World.init).1 = none ∧
      (handleFieldCommand simpleFold client itemName fieldName World.init).2.stdout
        = f.Value ++ "\n") ∧
    EqualFold simpleFold "password" "Password" = true ∧
    EqualFold simpleFold "password" "password" = true ∧
    EqualFold simpleFold "password" "PASSWORD" = true := by
  refine ⟨?_, rfl, rfl, rfl⟩
  obtain ⟨pre, f, post, hsplit, hpre, hf⟩ :=
    exists_first_split (fun g : ItemField => EqualFold simpleFold g.Title fieldName)
      item.Fields hex
  obtain ⟨es, hrun⟩ := handleFieldCommand_found simpleFold client itemName fieldName item
    World.init pre post f hres hsplit hpre hf
  refine ⟨pre, f, post, hsplit, hpre, hf, ?_, ?_⟩
  · rw [hrun]
  · rw [hrun]
    simp [World.init]

/-- C4 as amended, at the backend `exClient`: requesting "Password" of
"My Login" prints the value of the field titled "password". -/
theorem handleFieldCommand_prints_first_match_witness :
    (handleFieldCommand asciiFold exClient "My Login" "Password" World.init).2.stdout
      = "hunter2\n" ∧
    ((∃ pre f post, exItem.Fields = pre ++ f :: post ∧
      (∀ g ∈ pre, EqualFold asciiFold g.Title "Password" = false) ∧
      EqualFold asciiFold f.Title "Password" = true ∧
      (handleFieldCommand asciiFold exClient "My Login" "Password" World.init).1 = none ∧
      (handleFieldCommand asciiFold exClient "My Login" "Password" World.init).2.stdout
        = f.Value ++ "\n") ∧
    EqualFold asciiFold "password" "Password" = true ∧
    EqualFold asciiFold "password" "password" = true ∧
    EqualFold asciiFold "password" "PASSWORD" = true) :=
  ⟨by decide,
    handleFieldCommand_prints_first_match asciiFold exClient "My Login" "Password" exItem rfl
      ⟨⟨"password", "hunter2"⟩, by decide, by decide⟩⟩

/-- C5, the code at the command line `-u ""` against the backend
`exClientUntitled`: the item name "" resolves to an item without a field
titled "username", yet `main` counts no flag, prints the usage text and
returns with status 0 and no error. -/
theorem main_username_empty_counterexample :
    (findItemByName asciiFold exClientUntitled "" World.init).1 =
      .ok ⟨"", [⟨"password", "hunter2"⟩]⟩ ∧
    (∀ g ∈ ([⟨"password", "hunter2"⟩] : List ItemField),
      EqualFold asciiFold g.Title "username" = false) ∧
    givenCount ⟨none, none, some "", none, []⟩ = 1 ∧
    parseFlags ⟨none, none, some "", none, []⟩ = ⟨false, false, "", "", []⟩ ∧
    main asciiFold (parseFlags ⟨none, none, some "", none, []⟩) (exOS exClientUntitled)
      World.init = (0, ⟨usageText, "", []⟩) := by
  refine ⟨rfl, by decide, by decide, by decide, rfl⟩

/-- C5 as amended: when `findItemByName` resolves the item and no field of the
resolved item has a Title equal to the field name case-insensitively,
`handleFieldCommand` prints nothing and fails with the error
"field '<field>' not found in item '<item>'", which names the requested field
and the requested item, for every item name and field name.  Through `-u`
given with an item name that is not the empty string the field named is
"username", through `-p` given with such an item name it is "password", and
the process exits with status 1. -/
theorem handleFieldCommand_field_not_found (client : Client) (itemName : String)
    (item : Item)
    (hres : (findItemByName simpleFold client itemName World.init).1 = .ok item) :
    (∀ fieldName : String,
      (∀ g ∈ item.Fields, EqualFold simpleFold g.Title fieldName = false) →
      (handleFieldCommand simpleFold client itemName fieldName World.init).1 =
          some ("field '" ++ fieldName ++ "' not found in item '" ++ itemName ++ "'") ∧
        (handleFieldCommand simpleFold client itemName fieldName World.init).2.stdout = "") ∧
    (∀ (os : OS) (w1 : World) (args : List String),
      createClient os World.init = (.ok client, w1) → itemName ≠ "" →
      (∀ g ∈ item.Fields, EqualFold simpleFold g.Title "username" = false) →
      (main simpleFold ⟨false, false, itemName, "", args⟩ os World.init).1 = 1 ∧
        (main simpleFold ⟨false, false, itemName, "", args⟩ os World.init).2.stdout = "" ∧
        (main simpleFold ⟨false, false, itemName, "", args⟩ os World.init).2.stderr =
          "Command failed: " ++ ("field '" ++ "username" ++ "' not found in item '"
            ++ itemName ++ "'") ++ "\n") ∧
    (∀ (os : OS) (w1 : World) (args : List String),
      createClient os World.init = (.ok client, w1) → itemName ≠ "" →
      (∀ g ∈ item.Fields, EqualFold simpleFold g.Title "password" = false) →
      (main simpleFold ⟨false, false, "", itemName, args⟩ os World.init).1 = 1 ∧
        (main simpleFold ⟨false, false, "", itemName, args⟩ os World.init).2.stdout = "" ∧
        (main simpleFold ⟨false, false, "", itemName, args⟩ os World.init).2.stderr =
          "Command failed: " ++ ("field '" ++ "password" ++ "' not found in item '"
            ++ itemName ++ "'") ++ "\n") := by
  refine ⟨fun fieldName hno => ?_, fun os w1 args hc hne hno => ?_,
    fun os w1 args hc hne hno => ?_⟩
  · obtain ⟨es, hrun⟩ := handleFieldCommand_missing simpleFold client itemName fieldName
      item World.init hres hno
    rw [hrun]
    exact ⟨rfl, rfl⟩
  · exact main_shortcut simpleFold ⟨false, false, itemName, "", args⟩ os client w1 itemName
      "username" item (by simp [flagCount, hne]) rfl rfl (Or.inl ⟨hne, rfl, rfl⟩) hc hres hno
  · exact main_shortcut simpleFold ⟨false, false, "", itemName, args⟩ os client w1 itemName
      "password" item (by simp [flagCount, hne]) rfl rfl (Or.inr ⟨rfl, hne, rfl, rfl⟩)
      hc hres hno

/-- C5 as amended, at the backend `exClientBare`, where "My Login" has no field titled
"username": `-u "My Login"` prints nothing and exits with status 1, and
`-f "My Login" otp` fails in the handler with both names in the message. -/
theorem handleFieldCommand_field_not_found_witness :
    ((handleFieldCommand asciiFold exClientBare "My Login" "otp" World.init).1 =
        some ("field '" ++ "otp" ++ "' not found in item '" ++ "My Login" ++ "'") ∧
      (handleFieldCommand asciiFold exClientBare "My Login" "otp" World.init).2.stdout = "") ∧
    ((main asciiFold ⟨false, false, "My Login", "", []⟩ (exOS exClientBare) World.init).1 = 1 ∧
      (main asciiFold ⟨false, false, "My Login", "", []⟩ (exOS exClientBare)
        World.init).2.stdout = "" ∧
      (main asciiFold ⟨false, false, "My Login", "", []⟩ (exOS exClientBare)
        World.init).2.stderr =
        "Command failed: " ++ ("field '" ++ "username" ++ "' not found in item '"
            ++ "My Login" ++ "'") ++ "\n") :=
  ⟨(handleFieldCommand_field_not_found asciiFold exClientBare "My Login"
      ⟨"My Login", [⟨"password", "hunter2"⟩]⟩ rfl).1 "otp" (by decide),
    (handleFieldCommand_field_not_found asciiFold exClientBare "My Login"
      ⟨"My Login", [⟨"password", "hunter2"⟩]⟩ rfl).2.1 (exOS exClientBare) _ [] rfl
      (by decide) (by decide)⟩

/-- C6, the code at the command line `-u "" -p "My Login"`: two mode flags are
given, `main` counts one, the token is read, the client is constructed and
the password handler runs; the mutual-exclusivity error is not printed. -/
theorem main_two_flags_given_counterexample :
    givenCount ⟨none, none, some "", some "My Login", []⟩ = 2 ∧
    flagCount (parseFlags ⟨none, none, some "", some "My Login", []⟩) = 1 ∧
    Event.newClient "abc123" "1psa" "v1.0.0" ∈
      (main asciiFold (parseFlags ⟨none, none, some "", some "My Login", []⟩)
        (exOS exClient) World.init).2.calls ∧
    Event.handleFieldCommand "My Login" "password" ∈
      (main asciiFold (parseFlags ⟨none, none, some "", some "My Login", []⟩)
        (exOS exClient) World.init).2.calls ∧
    (main asciiFold (parseFlags ⟨none, none, some "", some "My Login", []⟩)
      (exOS exClient) World.init).2.stdout = "hunter2\n" := by
  refine ⟨by decide, by decide, by decide, by decide, by decide⟩

/-- C6 as amended: when two or more of the four modes are active on the
command line (`-l` or `-f` given as true, `-u` or `-p` given with a value that
is not the empty string), `main` prints the mutual-exclusivity error followed
by the usage text and returns: nothing else is printed, no operating-system,
SDK or backend call is made and no handler is entered.  Hence a handler is
entered only when exactly one of the four modes is active. -/
theorem main_rejects_multiple_active_modes (cl : CommandLine) (os : OS) :
    (2 ≤ activeCount cl →
      main simpleFold (parseFlags cl) os World.init =
        (0, ⟨"Error: Only one flag can be used at a time\n" ++ usageText, "", []⟩)) ∧
    ((∃ e ∈ (main simpleFold (parseFlags cl) os World.init).2.calls, e.isHandler = true) →
      activeCount cl = 1) := by
  have hcount := flagCount_parseFlags cl
  have hmulti : 2 ≤ activeCount cl →
      main simpleFold (parseFlags cl) os World.init =
        (0, ⟨"Error: Only one flag can be used at a time\n" ++ usageText, "", []⟩) := by
    intro h
    have h0 : flagCount (parseFlags cl) ≠ 0 := by omega
    have h1 : flagCount (parseFlags cl) > 1 := by omega
    simp [main, h0, h1, showUsage_eq, World.println, World.print, World.init]
  refine ⟨hmulti, ?_⟩
  rintro ⟨e, he, _⟩
  by_cases h0 : flagCount (parseFlags cl) = 0
  · simp [main, h0, showUsage_eq, World.init] at he
  · by_cases h2 : 2 ≤ activeCount cl
    · rw [hmulti h2] at he
      cases he
    · omega

/-- C6 as amended, at the command lines `-l -f` and `-u "My Login" -p "My Login"`,
where the error and the usage text are printed and nothing is called, and at
the command line `-l`, where the list handler is entered. -/
theorem main_rejects_multiple_active_modes_witness :
    main asciiFold (parseFlags ⟨some true, some true, none, none, []⟩) (exOS exClient)
      World.init =
      (0, ⟨"Error: Only one flag can be used at a time\n" ++ usageText, "", []⟩) ∧
    main asciiFold (parseFlags ⟨none, none, some "My Login", some "My Login", []⟩)
      (exOS exClient) World.init =
      (0, ⟨"Error: Only one flag can be used at a time\n" ++ usageText, "", []⟩) ∧
    Event.handleListCommand "" ∈
      (main asciiFold (parseFlags ⟨some true, none, none, none, []⟩) (exOS exClient)
        World.init).2.calls ∧
    activeCount ⟨some true, none, none, none, []⟩ = 1 :=
  ⟨(main_rejects_multiple_active_modes asciiFold ⟨some true, some true, none, none, []⟩
      (exOS exClient)).1 (by decide),
    (main_rejects_multiple_active_modes asciiFold
      ⟨none, none, some "My Login", some "My Login", []⟩ (exOS exClient)).1 (by decide),
    by decide,
    (main_rejects_multiple_active_modes asciiFold ⟨some true, none, none, none, []⟩
      (exOS exClient)).2 ⟨Event.handleListCommand "", by decide, rfl⟩⟩

/-- C7, the code at two command lines where `-f` is the only mode flag.  With
three positional arguments the field handler is entered with the first two
and the value is printed, not the argument error.  With exactly two
positional arguments and no token file, the client cannot be constructed and
no handler is entered. -/
theorem main_field_flag_counterexample :
    flagCount ⟨false, true, "", "", ["My Login", "password", "extra"]⟩ = 1 ∧
    (["My Login", "password", "extra"] : List String).length = 3 ∧
    Event.handleFieldCommand "My Login" "password" ∈
      (main asciiFold ⟨false, true, "", "", ["My Login", "password", "extra"]⟩
        (exOS exClient) World.init).2.calls ∧
    (main asciiFold ⟨false, true, "", "", ["My Login", "password", "extra"]⟩
        (exOS exClient) World.init).2.stdout = "hunter2\n" ∧
    (["My Login", "password"] : List String).length = 2 ∧
    (∀ e ∈ (main asciiFold ⟨false, true, "", "", ["My Login", "password"]⟩
        exOSNoToken World.init).2.calls, e.isHandler = false) ∧
    (main asciiFold ⟨false, true, "", "", ["My Login", "password"]⟩
        exOSNoToken World.init).1 = 1 := by
  refine ⟨by decide, by decide, by decide, by decide, by decide, by decide, by decide⟩

/-- C7 as amended: when `-f` is the only mode flag set and the backend client
has been constructed, the field handler is entered (with the first positional
argument as item and the second as field, further arguments being ignored) if
and only if there are at least two positional arguments; with fewer than two,
`main` prints the argument error and the usage text, enters no handler and
returns. -/
theorem main_field_flag_dispatch (fl : Flags) (os : OS) (client : Client) (w1 : World)
    (hf : fl.fieldFlag = true) (hl : fl.listFlag = false)
    (hu : fl.usernameFlag = "") (hp : fl.passwordFlag = "")
    (hc : createClient os World.init = (.ok client, w1)) :
    ((∃ e ∈ (main simpleFold fl os World.init).2.calls, e.isHandler = true) ↔
      2 ≤ fl.args.length) ∧
    (2 ≤ fl.args.length →
      main simpleFold fl os World.init =
          finish (handleFieldCommand simpleFold client
            (fl.args.getD 0 "") (fl.args.getD 1 "") w1) ∧
        Event.handleFieldCommand (fl.args.getD 0 "") (fl.args.getD 1 "") ∈
          (main simpleFold fl os World.init).2.calls) ∧
    (fl.args.length < 2 →
      (main simpleFold fl os World.init).1 = 0 ∧
        (main simpleFold fl os World.init).2.stdout =
          "Error: -f flag requires both item name and field name\n" ++ usageText ∧
        ∀ e ∈ (main simpleFold fl os World.init).2.calls, e.isHandler = false) := by
  have hcount : flagCount fl = 1 := by simp [flagCount, hf, hl, hu, hp]
  obtain ⟨hout, _, hcalls⟩ := createClient_world os World.init w1 (.ok client) hc
  have hge : 2 ≤ fl.args.length →
      main simpleFold fl os World.init =
          finish (handleFieldCommand simpleFold client
            (fl.args.getD 0 "") (fl.args.getD 1 "") w1) ∧
        Event.handleFieldCommand (fl.args.getD 0 "") (fl.args.getD 1 "") ∈
          (main simpleFold fl os World.init).2.calls := by
    intro h
    have hlt : ¬ fl.args.length < 2 := by omega
    have hmain : main simpleFold fl os World.init =
        finish (handleFieldCommand simpleFold client
          (fl.args.getD 0 "") (fl.args.getD 1 "") w1) := by
      simp [main, hcount, hc, hf, hl, hlt]
    refine ⟨hmain, ?_⟩
    obtain ⟨r, out, es, hrun⟩ := handleFieldCommand_frame simpleFold client
      (fl.args.getD 0 "") (fl.args.getD 1 "")
    rw [hmain, finish_calls, hrun w1]
    simp
  have hlt : fl.args.length < 2 →
      (main simpleFold fl os World.init).1 = 0 ∧
        (main simpleFold fl os World.init).2.stdout =
          "Error: -f flag requires both item name and field name\n" ++ usageText ∧
        ∀ e ∈ (main simpleFold fl os World.init).2.calls, e.isHandler = false := by
    intro h
    have hmain : main simpleFold fl os World.init =
        (0, showUsage (w1.println "Error: -f flag requires both item name and field name")) := by
      simp [main, hcount, hc, hf, hl, h]
    rw [hmain, showUsage_eq]
    refine ⟨rfl, ?_, ?_⟩
    · simp [World.println, World.print, hout, World.init]
    · intro e he
      rcases hcalls e he with h0 | h0
      · cases h0
      · exact h0
  refine ⟨⟨?_, fun h => ⟨_, (hge h).2, rfl⟩⟩, hge, hlt⟩
  rintro ⟨e, he, hh⟩
  by_contra hnot
  have := (hlt (by omega)).2.2 e he
  rw [hh] at this
  cases this

/-- C7 as amended, at `-f "My Login" password extra` and at `-f "My Login"`. -/
theorem main_field_flag_dispatch_witness :
    (Event.handleFieldCommand "My Login" "password" ∈
      (main asciiFold ⟨false, true, "", "", ["My Login", "password", "extra"]⟩
        (exOS exClient) World.init).2.calls) ∧
    ((main asciiFold ⟨false, true, "", "", ["My Login"]⟩ (exOS exClient) World.init).1 = 0 ∧
      (main asciiFold ⟨false, true, "", "", ["My Login"]⟩ (exOS exClient) World.init).2.stdout =
        "Error: -f flag requires both item name and field name\n" ++ usageText ∧
      ∀ e ∈ (main asciiFold ⟨false, true, "", "", ["My Login"]⟩ (exOS exClient)
        World.init).2.calls, e.isHandler = false) :=
  ⟨((main_field_flag_dispatch asciiFold ⟨false, true, "", "", ["My Login", "password", "extra"]⟩
      (exOS exClient) exClient _ rfl rfl rfl rfl rfl).2.1 (by decide)).2,
    (main_field_flag_dispatch asciiFold ⟨false, true, "", "", ["My Login"]⟩
      (exOS exClient) exClient _ rfl rfl rfl rfl rfl).2.2 (by decide)⟩

/-- C8: when list-vaults succeeds, `handleListCommand` with an empty item
name returns no error whatever the per-vault list-items calls return.  With
an empty vault list it prints only the no-vaults message; otherwise, after the
count line, the output is one section per vault in listing order: the vault
header and separator followed by the inline error line (list-items failed),
the no-items line (zero items) or the item lines numbered 1..n in listing
order. -/
theorem handleListCommand_lists_every_vault (client : Client) (vaults : List Vault)
    (hv : client.vaultsList = .ok vaults) :
    (handleListCommand simpleFold client "" World.init).1 = none ∧
    (vaults = [] →
      (handleListCommand simpleFold client "" World.init).2.stdout =
        "No vaults accessible to this service account\n") ∧
    (vaults ≠ [] →
      (handleListCommand simpleFold client "" World.init).2.stdout =
        "Found " ++ toString vaults.length ++ " vault(s) accessible to the service account:\n\n"
          ++ concat (vaults.map (layoutVault client))) := by
  cases vaults with
  | nil =>
    refine ⟨?_, fun _ => ?_, fun h => absurd rfl h⟩
    · simp [handleListCommand, hv]
    · simp [handleListCommand, hv, World.println, World.print, World.emit, World.init]
  | cons v rest =>
    refine ⟨?_, fun h => List.noConfusion h, fun _ => ?_⟩
    · simp [handleListCommand, hv]
    · simp [handleListCommand, hv, printVaults_eq, World.print, World.emit, World.init,
        String.append_assoc]

set_option maxRecDepth 8192 in
/-- C8 at the backends `exClientList` (one vault fails, one has two items, one
has none) and `exClientNoVaults`. -/
theorem handleListCommand_lists_every_vault_witness :
    ((handleListCommand asciiFold exClientList "" World.init).1 = none ∧
      (handleListCommand asciiFold exClientList "" World.init).2.stdout =
        "Found 3 vault(s) accessible to the service account:\n\n"
          ++ "Vault: Locked (ID: v0)\n" ++ "--------------------------\n"
          ++ "  Error listing items in vault Locked: access denied\n\n"
          ++ "Vault: Private (ID: v1)\n" ++ "---------------------------\n"
          ++ "  Found 2 item(s):\n"
          ++ "  1. Other (ID: i1) Category: Login\n"
          ++ "  2. my login (ID: i2) Category: Login Tags: a, b\n" ++ "\n"
          ++ "Vault: Empty (ID: v3)\n" ++ "-------------------------\n"
          ++ "  No items found in this vault\n" ++ "\n") ∧
    (handleListCommand asciiFold exClientNoVaults "" World.init).2.stdout =
      "No vaults accessible to this service account\n" :=
  ⟨⟨(handleListCommand_lists_every_vault asciiFold exClientList _ rfl).1,
      ((handleListCommand_lists_every_vault asciiFold exClientList _ rfl).2.2
        (by decide)).trans rfl⟩,
    (handleListCommand_lists_every_vault asciiFold exClientNoVaults [] rfl).2.1 rfl⟩

/-- C9: in list-fields mode the values are not shown.  For two resolved items
with the same Title and the same sequence of field Titles, whatever their
field Values, `listItemFields` returns no error and prints the same output:
the title header, the separator, and the field titles numbered 1..n in field
order, or the no-fields message when the item has no field. -/
theorem listItemFields_hides_values (client1 client2 : Client) (name1 name2 : String)
    (item1 item2 : Item)
    (hres1 : (findItemByName simpleFold client1 name1 World.init).1 = .ok item1)
    (hres2 : (findItemByName simpleFold client2 name2 World.init).1 = .ok item2)
    (htitle : item1.Title = item2.Title)
    (hfields : item1.Fields.map (fun f => f.Title) = item2.Fields.map (fun f => f.Title)) :
    (listItemFields simpleFold client1 name1 World.init).2.stdout =
      (listItemFields simpleFold client2 name2 World.init).2.stdout ∧
    (listItemFields simpleFold client1 name1 World.init).2.stdout =
      layoutFields item1.Title (item1.Fields.map (fun f => f.Title)) ∧
    (listItemFields simpleFold client1 name1 World.init).1 = none ∧
    (listItemFields simpleFold client2 name2 World.init).1 = none := by
  obtain ⟨es1, h1⟩ := listItemFields_eq simpleFold client1 name1 item1 World.init hres1
  obtain ⟨es2, h2⟩ := listItemFields_eq simpleFold client2 name2 item2 World.init hres2
  rw [h1, h2, htitle, hfields]
  simp [World.init]

/-- C9 at the backends `exClient` and `exClientOther`, whose items "My Login"
differ in every field value. -/
theorem listItemFields_hides_values_witness :
    (listItemFields asciiFold exClient "My Login" World.init).2.stdout =
      "Fields for item 'My Login':\n" ++ "----------------------------\n"
        ++ "1. username\n" ++ "2. password\n" ++ "3. PASSWORD\n" ∧
    ((listItemFields asciiFold exClient "My Login" World.init).2.stdout =
      (listItemFields asciiFold exClientOther "my login" World.init).2.stdout ∧
    (listItemFields asciiFold exClient "My Login" World.init).2.stdout =
      layoutFields exItem.Title (exItem.Fields.map (fun f => f.Title)) ∧
    (listItemFields asciiFold exClient "My Login" World.init).1 = none ∧
    (listItemFields asciiFold exClientOther "my login" World.init).1 = none) :=
  ⟨by decide,
    listItemFields_hides_values asciiFold exClient exClientOther "My Login" "my login" exItem
      ⟨"My Login", [⟨"username", "root"⟩, ⟨"password", "swordfish"⟩, ⟨"PASSWORD", "x"⟩]⟩
      rfl rfl rfl rfl⟩

/-- C10: for a readable token file, the token that `createClient` hands to
the SDK is the file content with all leading and trailing whitespace removed
and nothing else changed: the content is whitespace, then the token, then
whitespace, and the token neither starts nor ends with whitespace.  A content
of whitespace only (or empty) loads as the empty string, and the only error
`createClient` can then report is the one of the SDK constructor.  The content
"abc123\n" loads as "abc123". -/
theorem createClient_loads_trimmed_token (os : OS) (homeDir content : String)
    (hh : os.userHomeDir = .ok homeDir)
    (hr : os.readFile (os.pathJoin homeDir ".1psa") = .ok content) :
    (createClient os World.init).2.calls =
      [Event.userHomeDir, Event.readFile (os.pathJoin homeDir ".1psa"),
        Event.newClient (TrimSpace content) "1psa" "v1.0.0"] ∧
    (createClient os World.init).1 =
      (os.newClient (TrimSpace content) "1psa" "v1.0.0").mapError
        (fun err => "failed to create client: " ++ err) ∧
    (∃ pre post, content.data = pre ++ (TrimSpace content).data ++ post ∧
      (∀ r ∈ pre, isSpace r = true) ∧ (∀ r ∈ post, isSpace r = true)) ∧
    (∀ r, (TrimSpace content).data.head? = some r → isSpace r = false) ∧
    (∀ r, (TrimSpace content).data.getLast? = some r → isSpace r = false) ∧
    ((∀ r ∈ content.data, isSpace r = true) → TrimSpace content = "") ∧
    TrimSpace "" = "" ∧
    TrimSpace "abc123\n" = "abc123" := by
  refine ⟨?_, ?_, TrimFunc_split isSpace content.data, TrimFunc_head isSpace content.data,
    TrimFunc_last isSpace content.data, fun hall => ?_, by decide, by decide⟩
  · cases hn : os.newClient (TrimSpace content) "1psa" "v1.0.0" <;>
      simp [createClient, hh, hr, hn, World.emit, World.init]
  · cases hn : os.newClient (TrimSpace content) "1psa" "v1.0.0" <;>
      simp [createClient, hh, hr, hn, Except.mapError]
  · simp only [TrimSpace, TrimFunc_all isSpace content.data hall]

/-- C10 at the token file "abc123\n" and at a token file of whitespace
only. -/
theorem createClient_loads_trimmed_token_witness :
    (createClient (exOS exClient) World.init).2.calls =
      [Event.userHomeDir, Event.readFile "/home/phil/.1psa",
        Event.newClient "abc123" "1psa" "v1.0.0"] ∧
    (createClient exOSBlank World.init).2.calls =
      [Event.userHomeDir, Event.readFile "/home/phil/.1psa",
        Event.newClient "" "1psa" "v1.0.0"] ∧
    TrimSpace " \t\r\n\n" = "" :=
  ⟨(createClient_loads_trimmed_token (exOS exClient) "/home/phil" "abc123\n" rfl rfl).1,
    (createClient_loads_trimmed_token exOSBlank "/home/phil" " \t\r\n\n" rfl rfl).1,
    (createClient_loads_trimmed_token exOSBlank "/home/phil" " \t\r\n\n" rfl rfl).2.2.2.2.2.1
      (by decide)⟩

end Claims
end OnePsa
